import Mathlib

/-!
# Verification of the citizen-project backend (authentication, authorization
and service layer)

Each definition below transcribes one Python function of the repository
(under backend/app) into Lean.  External collaborators are made explicit
parameters: the MongoDB collections become Lean lists of records, the
Firebase verifier becomes an injected function, bcrypt hashing becomes an
injected function, and the clock becomes a natural number of seconds.
Timestamp bookkeeping fields (created_at, updated_at, last_login) are not
modelled: no transcribed function branches on them.
-/

deriving instance DecidableEq for Except

/-- UserRole enumeration (app/db/models/user.py). -/
inductive UserRole
  | citizen
  | authority
  | admin
  deriving DecidableEq, Repr

/-- User document (app/db/models/user.py), restricted to the fields the
transcribed functions read or write.  Profile, authority-specific fields
and timestamps are omitted: none of the functions below consult them. -/
structure User where
  id : String
  email : String
  firebase_uid : Option String
  password_hash : Option String
  full_name : String
  username : String
  role : UserRole
  followers : List String
  following : List String
  is_active : Bool
  deriving DecidableEq, Repr

/-- User.is_admin (app/db/models/user.py). -/
def User.is_admin (u : User) : Bool :=
  u.role == UserRole.admin

/-- User.is_authority (app/db/models/user.py). -/
def User.is_authority (u : User) : Bool :=
  u.role == UserRole.authority

/-- check_admin_role (app/core/security.py): the argument is the value of
the claims dictionary at key "role" (absent for federated claims). -/
def check_admin_role (role : Option UserRole) : Bool :=
  role == some UserRole.admin

/-- check_authority_role (app/core/security.py). -/
def check_authority_role (role : Option UserRole) : Bool :=
  role == some UserRole.authority || role == some UserRole.admin

/-- The payload of a locally issued JWT (the dictionary passed to
jwt.encode in create_access_token): sub, email, role plus the exp claim
added at issuance.  exp is an absolute timestamp in seconds. -/
structure TokenPayload where
  sub : String
  email : String
  role : UserRole
  exp : Nat
  deriving DecidableEq, Repr

/-- A bearer token as far as local verification can observe it: the JWT
payload together with the key it was signed with.  HS256 signature
validation in python-jose succeeds exactly when the verifying key equals
the signing key, which is what the key field captures. -/
structure Token where
  payload : TokenPayload
  key : String
  deriving DecidableEq, Repr

/-- The claims returned by firebase_auth.verify_id_token: uid, email and
an optional display name (the fields the backend reads). -/
structure FirebasePayload where
  uid : String
  email : String
  name : Option String
  deriving DecidableEq, Repr

/-- The dictionary returned by get_current_user_from_token: either a local
JWT payload or a Firebase claims dictionary. -/
inductive Claims
  | jwtPayload (p : TokenPayload)
  | firebasePayload (f : FirebasePayload)
  deriving DecidableEq, Repr

/-- current_user.get("sub"): local JWT payloads carry sub directly; in a
decoded Firebase ID token the sub claim equals the uid. -/
def Claims.sub : Claims → String
  | .jwtPayload p => p.sub
  | .firebasePayload f => f.uid

/-- Settings (app/core/config.py), restricted to the security fields.  The
default values are the ones in the source: an empty SECRET_KEY and a
24-hour token lifetime. -/
structure Settings where
  SECRET_KEY : String := ""
  ACCESS_TOKEN_EXPIRE_MINUTES : Nat := 60 * 24
  deriving DecidableEq, Repr

/-- get_secret_key (app/core/security.py): the configured SECRET_KEY when
non-empty, otherwise a freshly generated development key; the generated
key is the devRandomKey parameter here. -/
def get_secret_key (s : Settings) (devRandomKey : String) : String :=
  if s.SECRET_KEY ≠ "" then s.SECRET_KEY else devRandomKey

/-- The three claims the auth service always issues tokens for
(token_data in AuthService.register_user / login_user / firebase_auth). -/
structure SessionData where
  sub : String
  email : String
  role : UserRole
  deriving DecidableEq, Repr

/-- create_access_token (app/core/security.py): copies the data claims,
adds exp = now + expires_delta (seconds), defaulting the delta to
ACCESS_TOKEN_EXPIRE_MINUTES minutes, and signs with get_secret_key. -/
def create_access_token (s : Settings) (devRandomKey : String) (now : Nat)
    (data : SessionData) (expires_delta : Option Nat) : Token :=
  let expire : Nat :=
    match expires_delta with
    | some d => now + d
    | none => now + s.ACCESS_TOKEN_EXPIRE_MINUTES * 60
  { payload := { sub := data.sub, email := data.email, role := data.role, exp := expire },
    key := get_secret_key s devRandomKey }

/-- decode_access_token (app/core/security.py): jwt.decode returns the
payload when the signature verifies under get_secret_key and the exp
claim is not in the past; on JWTError (bad signature or expired) the
function returns None. -/
def decode_access_token (s : Settings) (devRandomKey : String) (now : Nat)
    (token : Token) : Option TokenPayload :=
  if token.key = get_secret_key s devRandomKey ∧ now ≤ token.payload.exp then
    some token.payload
  else
    none

/-- verify_firebase_token (app/core/security.py): delegates to the
Firebase Admin SDK; any exception yields None.  The SDK is the injected
function fb. -/
def verify_firebase_token (fb : Token → Option FirebasePayload)
    (token : Token) : Option FirebasePayload :=
  fb token

/-- get_current_user_from_token (app/core/security.py): first try the
local JWT, then the Firebase token, and only when both fail raise
HTTP 401.  Errors are modelled as the HTTP status code. -/
def get_current_user_from_token (s : Settings) (devRandomKey : String) (now : Nat)
    (fb : Token → Option FirebasePayload) (token : Token) : Except Nat Claims :=
  match decode_access_token s devRandomKey now token with
  | some payload => Except.ok (Claims.jwtPayload payload)
  | none =>
    match verify_firebase_token fb token with
    | some firebase_payload => Except.ok (Claims.firebasePayload firebase_payload)
    | none => Except.error 401

/-- AuthService.get_user_by_id (app/services/auth/auth_service.py): a
lookup in the users collection by document id. -/
def get_user_by_id (db : List User) (user_id : String) : Option User :=
  db.find? (fun u => u.id == user_id)

/-- verify_admin (app/api/v1/endpoints/admin.py): re-load the user whose
id is the sub claim and require is_admin; otherwise HTTP 403. -/
def verify_admin (db : List User) (current_user : Claims) : Except Nat Claims :=
  match get_user_by_id db current_user.sub with
  | none => Except.error 403
  | some user =>
    if user.is_admin then Except.ok current_user else Except.error 403

/-- The dependency chain of every admin endpoint: the Depends pipeline
get_current_user_from_token followed by verify_admin. -/
def admin_guard (s : Settings) (devRandomKey : String) (now : Nat)
    (fb : Token → Option FirebasePayload) (db : List User)
    (token : Token) : Except Nat Claims :=
  match get_current_user_from_token s devRandomKey now fb token with
  | Except.ok current_user => verify_admin db current_user
  | Except.error e => Except.error e

/-- The role check at the top of update_complaint_status
(app/api/v1/endpoints/complaints.py lines 225-232): re-load the user and
require check_authority_role on the stored role; otherwise HTTP 403. -/
def update_complaint_status_guard (db : List User) (current_user : Claims) :
    Except Nat Unit :=
  match get_user_by_id db current_user.sub with
  | none => Except.error 403
  | some user =>
    if check_authority_role (some user.role) then Except.ok ()
    else Except.error 403

/-- Mongo persists a mutation of a document fetched by its unique id by
rewriting that one document.  On the list model this is: apply f to the
first element satisfying q and keep everything else. -/
def updateFirst {α : Type} (q : α → Bool) (f : α → α) : List α → List α
  | [] => []
  | x :: t => if q x then f x :: t else x :: updateFirst q f t

/-- UserRegisterRequest (app/schemas/user.py), restricted to the fields
register_user reads. -/
structure UserRegisterRequest where
  email : String
  password : String
  full_name : String
  username : String
  deriving DecidableEq, Repr

/-- AuthService.register_user (app/services/auth/auth_service.py).  The
bcrypt collaborator is the injected function hash; fresh_id is the
ObjectId Mongo assigns at insert; the List User is the users collection.
Returns the new collection together with the AuthResponse data (the
created user and its access token). -/
def register_user (hash : String → String) (s : Settings) (devRandomKey : String)
    (now : Nat) (fresh_id : String) (db : List User)
    (req : UserRegisterRequest) : Except String (List User × User × Token) :=
  if (db.find? (fun u => u.email == req.email)).isSome then
    Except.error "Email already registered"
  else if (db.find? (fun u => u.username == req.username)).isSome then
    Except.error "Username already taken"
  else
    let user : User :=
      { id := fresh_id, email := req.email, firebase_uid := none,
        password_hash := some (hash req.password), full_name := req.full_name,
        username := req.username, role := UserRole.citizen,
        followers := [], following := [], is_active := true }
    let token := create_access_token s devRandomKey now
      { sub := user.id, email := user.email, role := user.role } none
    Except.ok (db ++ [user], user, token)

/-- The username-availability test of AuthService.firebase_auth. -/
def usernameTaken (db : List User) (n : String) : Bool :=
  (db.find? (fun u => u.username == n)).isSome

/-- The while-loop of AuthService.firebase_auth that suffixes a counter
until the username is free.  The loop is bounded by fuel; the source loop
terminates because only finitely many usernames are taken, and the
callers below pass fuel larger than the collection size. -/
def uniqueUsernameLoop : Nat → List User → String → String → Nat → String
  | 0, _, _, candidate, _ => candidate
  | fuel + 1, db, base, candidate, counter =>
    if usernameTaken db candidate then
      uniqueUsernameLoop fuel db base (base ++ toString counter) (counter + 1)
    else candidate

/-- email.split("@")[0].lower() from AuthService.firebase_auth: the
characters before the first at-sign, lowercased (ASCII, as in the data
this backend handles). -/
def emailLocalPartLower (email : String) : String :=
  ((email.toList.takeWhile (fun c => c ≠ '@')).map Char.toLower).asString

/-- AuthService.firebase_auth (app/services/auth/auth_service.py).  The
Firebase verification result is passed in as firebase_data (None models a
failed verification); fresh_id is the ObjectId assigned if a user is
created.  Returns the new users collection and the authenticated user;
the access-token issuance at the end reuses create_access_token and is
not repeated here. -/
def firebase_auth (db : List User) (fresh_id : String)
    (req_username : Option String) (req_full_name : Option String)
    (firebase_data : Option FirebasePayload) : Except String (List User × User) :=
  match firebase_data with
  | none => Except.error "Invalid Firebase token"
  | some fd =>
    match db.find? (fun u => u.firebase_uid == some fd.uid) with
    | some user => Except.ok (db, user)
    | none =>
      match db.find? (fun u => u.email == fd.email) with
      | some user =>
        let linked : User := { user with firebase_uid := some fd.uid }
        Except.ok
          (updateFirst (fun u => u.email == fd.email)
            (fun u => { u with firebase_uid := some fd.uid }) db, linked)
      | none =>
        let base : String :=
          match req_username with
          | some un => un
          | none => emailLocalPartLower fd.email
        let username := uniqueUsernameLoop (db.length + 2) db base base 1
        let display : Option String :=
          match fd.name with
          | some n => some n
          | none => req_full_name
        let user : User :=
          { id := fresh_id, email := fd.email, firebase_uid := some fd.uid,
            password_hash := none,
            full_name := match display with | some n => n | none => "User",
            username := username, role := UserRole.citizen,
            followers := [], following := [], is_active := true }
        Except.ok (db ++ [user], user)

/-- Post document (app/db/models/community.py), restricted to the fields
like_post reads or writes. -/
structure Post where
  id : String
  author_id : String
  content : String
  likes : List String
  is_active : Bool
  deriving DecidableEq, Repr

/-- CommunityService.like_post (app/services/community/community_service.py):
fetch the post by id (False when absent), then toggle user_id in the
likes list — list.remove drops the first occurrence, append adds at the
end — and save the post. -/
def like_post (db : List Post) (post_id user_id : String) : List Post × Bool :=
  match db.find? (fun p => p.id == post_id) with
  | none => (db, false)
  | some post =>
    let likes : List String :=
      if user_id ∈ post.likes then post.likes.erase user_id
      else post.likes ++ [user_id]
    (updateFirst (fun p => p.id == post_id) (fun p => { p with likes := likes }) db,
     true)

/-- CommunityService.follow_user (community_service.py): refuse self-
follow, fetch both users (False when either is absent), then append the
target to the follower's following list and the follower to the target's
followers list, each only when not already present. -/
def follow_user (db : List User) (user_id target_user_id : String) :
    List User × Bool :=
  if user_id = target_user_id then (db, false)
  else
    match db.find? (fun u => u.id == user_id),
        db.find? (fun u => u.id == target_user_id) with
    | some user, some target =>
      let db1 :=
        if target_user_id ∈ user.following then db
        else updateFirst (fun u => u.id == user_id)
          (fun u => { u with following := u.following ++ [target_user_id] }) db
      let db2 :=
        if user_id ∈ target.followers then db1
        else updateFirst (fun u => u.id == target_user_id)
          (fun u => { u with followers := u.followers ++ [user_id] }) db1
      (db2, true)
    | _, _ => (db, false)

/-- SourceDocumentSchema (app/schemas/chat.py), as far as the retrieval
stub populates it.  The source field named section is sectionName here
(section is a Lean keyword); relevance_score is a float in the source
(0.95 and 0.88) and is stored here scaled by 100. -/
structure SourceDocumentSchema where
  title : String
  sectionName : String
  article : String
  content_snippet : String
  relevance_score_pct : Nat
  deriving DecidableEq, Repr

/-- The first hard-coded excerpt of RAGService._retrieve_documents. -/
def article21Source : SourceDocumentSchema :=
  { title := "Constitution of India", sectionName := "Fundamental Rights",
    article := "Article 21",
    content_snippet := "No person shall be deprived of his life or personal liberty except according to procedure established by law.",
    relevance_score_pct := 95 }

/-- The second hard-coded excerpt of RAGService._retrieve_documents. -/
def article14Source : SourceDocumentSchema :=
  { title := "Constitution of India", sectionName := "Fundamental Rights",
    article := "Article 14",
    content_snippet := "The State shall not deny to any person equality before the law or the equal protection of the laws within the territory of India.",
    relevance_score_pct := 88 }

/-- Substring containment, the semantics of the Python expression
needle in hay on strings. -/
def containsSub : List Char → List Char → Bool
  | [], needle => needle.isEmpty
  | c :: t, needle => needle.isPrefixOf (c :: t) || containsSub t needle

/-- RAGService._retrieve_documents (app/services/chatbot/rag_service.py):
both sample excerpts when the lowercased query contains right or
fundamental, otherwise only the Article 21 excerpt. -/
def retrieve_documents (query : List Char) : List SourceDocumentSchema :=
  let lowered := query.map Char.toLower
  if containsSub lowered "right".toList || containsSub lowered "fundamental".toList
  then [article21Source, article14Source]
  else [article21Source]

/-- Fixture: settings with a configured shared secret. -/
def sampleSettings : Settings := { SECRET_KEY := "k" }

/-- Fixture: an admin whose account has been deactivated. -/
def inactiveAdmin : User :=
  { id := "u1", email := "a@x.in", firebase_uid := none, password_hash := some "h",
    full_name := "A", username := "a", role := UserRole.admin,
    followers := [], following := [], is_active := false }

/-- Fixture: a valid, unexpired token for user u1 (any role claim — the
admin guard ignores it). -/
def tokenForU1 : Token :=
  { payload := { sub := "u1", email := "a@x.in", role := UserRole.admin, exp := 100 },
    key := "k" }

/-- Fixture: user u1 after an admin elevated it to the admin role (active). -/
def elevatedUser : User :=
  { id := "u1", email := "a@x.in", firebase_uid := none, password_hash := some "h",
    full_name := "A", username := "a", role := UserRole.admin,
    followers := [], following := [], is_active := true }

/-- Fixture: the token u1 obtained while still a citizen — the role
snapshot in the payload says citizen. -/
def staleCitizenToken : Token :=
  { payload := { sub := "u1", email := "a@x.in", role := UserRole.citizen, exp := 100 },
    key := "k" }

/-- Fixture: a registration request. -/
def sampleRegisterRequest : UserRegisterRequest :=
  { email := "c@x.in", password := "pw", full_name := "C", username := "c" }

/-- Fixture: the user record register_user builds for sampleRegisterRequest
under the identity hash and fresh id id1. -/
def sampleRegisteredUser : User :=
  { id := "id1", email := "c@x.in", firebase_uid := none, password_hash := some "pw",
    full_name := "C", username := "c", role := UserRole.citizen,
    followers := [], following := [], is_active := true }

/-- Fixture: an existing password account with no linked Firebase uid. -/
def unlinkedUser : User :=
  { id := "u2", email := "b@x.in", firebase_uid := none, password_hash := some "h",
    full_name := "B", username := "b", role := UserRole.citizen,
    followers := [], following := [], is_active := true }

/-- Fixture: Firebase claims matching unlinkedUser by email. -/
def sampleFirebasePayload : FirebasePayload :=
  { uid := "fb9", email := "b@x.in", name := some "B" }

/-- Fixture: a post liked by u and v. -/
def samplePost : Post :=
  { id := "p", author_id := "a", content := "c", likes := ["u", "v"],
    is_active := true }

/-- Fixture: two distinct users for the follow tests. -/
def followerUser : User :=
  { id := "f1", email := "f1@x.in", firebase_uid := none, password_hash := some "h",
    full_name := "F1", username := "f1", role := UserRole.citizen,
    followers := [], following := [], is_active := true }

/-- Fixture: the user being followed. -/
def followedUser : User :=
  { id := "f2", email := "f2@x.in", firebase_uid := none, password_hash := some "h",
    full_name := "F2", username := "f2", role := UserRole.citizen,
    followers := [], following := [], is_active := true }

theorem updateFirst_length {α : Type} (q : α → Bool) (f : α → α) (db : List α) :
    (updateFirst q f db).length = db.length := by
  induction db with
  | nil => rfl
  | cons x t ih =>
    simp only [updateFirst]
    split <;> simp [ih]

theorem find?_updateFirst_found {α : Type} (q : α → Bool) (f : α → α)
    (db : List α) (x : α) (hq : db.find? q = some x) (hfx : q (f x) = true) :
    (updateFirst q f db).find? q = some (f x) := by
  induction db with
  | nil => simp at hq
  | cons y t ih =>
    cases hy : q y with
    | true =>
      simp only [List.find?_cons, hy] at hq
      cases hq
      simp [updateFirst, hy, List.find?_cons, hfx]
    | false =>
      simp only [List.find?_cons, hy] at hq
      simp [updateFirst, hy, List.find?_cons, ih hq]

theorem find?_updateFirst_disjoint {α : Type} (q r : α → Bool) (f : α → α)
    (db : List α) (hqr : ∀ y, q y = true → r y = false)
    (hrf : ∀ y, r (f y) = r y) :
    (updateFirst q f db).find? r = db.find? r := by
  induction db with
  | nil => rfl
  | cons y t ih =>
    cases hy : q y with
    | true =>
      have hr : r y = false := hqr y hy
      simp [updateFirst, hy, List.find?_cons, hrf, hr]
    | false =>
      simp [updateFirst, hy, List.find?_cons, ih]

theorem find?_updateFirst_fresh {α : Type} (q r : α → Bool) (f : α → α)
    (db : List α) (x : α) (hq : db.find? q = some x)
    (hnone : db.find? r = none) (hrx : r (f x) = true) :
    (updateFirst q f db).find? r = some (f x) := by
  induction db with
  | nil => simp at hq
  | cons y t ih =>
    have hry : r y = false := by
      cases h : r y with
      | true => simp [List.find?_cons, h] at hnone
      | false => rfl
    simp only [List.find?_cons, hry] at hnone
    cases hy : q y with
    | true =>
      simp only [List.find?_cons, hy] at hq
      cases hq
      simp [updateFirst, hy, List.find?_cons, hrx]
    | false =>
      simp only [List.find?_cons, hy] at hq
      simp [updateFirst, hy, List.find?_cons, hry, ih hq hnone]

theorem updateFirst_eq_self {α : Type} (q : α → Bool) (f : α → α)
    (db : List α) (x : α) (hq : db.find? q = some x) (hfx : f x = x) :
    updateFirst q f db = db := by
  induction db with
  | nil => rfl
  | cons y t ih =>
    cases hy : q y with
    | true =>
      simp only [List.find?_cons, hy] at hq
      cases hq
      simp [updateFirst, hy, hfx]
    | false =>
      simp only [List.find?_cons, hy] at hq
      simp [updateFirst, hy, ih hq]

theorem updateFirst_updateFirst {α : Type} (q : α → Bool) (f g : α → α)
    (db : List α) (hgq : ∀ y, q (g y) = q y) :
    updateFirst q f (updateFirst q g db) =
      updateFirst q (fun y => f (g y)) db := by
  induction db with
  | nil => rfl
  | cons y t ih =>
    simp only [updateFirst]
    split
    · rename_i hy
      simp [updateFirst, hgq, hy]
    · rename_i hy
      have : q y = false := by simpa using hy
      simp [updateFirst, this, ih]

theorem updateFirst_cancel {α : Type} (q : α → Bool) (f g : α → α)
    (db : List α) (x : α) (hq : db.find? q = some x)
    (hgq : ∀ y, q (g y) = q y) (hfg : f (g x) = x) :
    updateFirst q f (updateFirst q g db) = db := by
  induction db with
  | nil => rfl
  | cons y t ih =>
    cases hy : q y with
    | true =>
      simp only [List.find?_cons, hy] at hq
      cases hq
      simp [updateFirst, hy, hgq, hfg]
    | false =>
      simp only [List.find?_cons, hy] at hq
      simp [updateFirst, hy, ih hq]

theorem verify_admin_never_401 (db : List User) (cu : Claims) :
    verify_admin db cu ≠ Except.error 401 := by
  unfold verify_admin
  split
  · simp
  · split <;> simp

theorem get_current_user_error_is_401 (s : Settings) (k : String) (now : Nat)
    (fb : Token → Option FirebasePayload) (tok : Token) (e : Nat)
    (h : get_current_user_from_token s k now fb tok = Except.error e) :
    e = 401 := by
  unfold get_current_user_from_token at h
  cases hd : decode_access_token s k now tok with
  | some p => rw [hd] at h; cases h
  | none =>
    rw [hd] at h
    cases hf : verify_firebase_token fb tok with
    | some f => rw [hf] at h; cases h
    | none =>
      rw [hf] at h
      injection h with h2
      exact h2.symm

/-- C1: the spec demands that every role-gated guard deny a deactivated
account; the code does not: with user u1 having role admin and
is_active = false, a valid token for u1 passes verify_admin (the guard
never consults is_active), and the stored-role check of
update_complaint_status also lets u1 through. -/
theorem verify_admin_allows_inactive_admin :
    inactiveAdmin.is_active = false ∧
    admin_guard sampleSettings "dev" 0 (fun _ => none) [inactiveAdmin] tokenForU1 =
      Except.ok (Claims.jwtPayload tokenForU1.payload) ∧
    update_complaint_status_guard [inactiveAdmin]
      (Claims.jwtPayload tokenForU1.payload) = Except.ok () := by
  decide

/-- C2 counterexample: a still-unexpired token issued with role citizen for
u1, after u1 is elevated to admin in the store, is ALLOWED by the
admin-only guard, not denied: verify_admin re-reads the stored role. -/
theorem stale_citizen_token_allowed_by_admin_guard :
    staleCitizenToken.payload.role = UserRole.citizen ∧
    elevatedUser.role = UserRole.admin ∧
    admin_guard sampleSettings "dev" 0 (fun _ => none) [elevatedUser]
      staleCitizenToken =
      Except.ok (Claims.jwtPayload staleCitizenToken.payload) := by
  decide

/-- C2 amended: resolution does return the role snapshotted at issuance
(decode_access_token yields the embedded payload unchanged), but the
admin-only guard decides on the currently stored role, so re-submitting a
citizen-role token after the subject was elevated to admin results in
Allow. -/
theorem admin_guard_decides_on_stored_role (s : Settings) (k : String)
    (now : Nat) (fb : Token → Option FirebasePayload) (db : List User)
    (tok : Token) (u : User)
    (hsig : tok.key = get_secret_key s k) (hexp : now ≤ tok.payload.exp)
    (_hsnapshot : tok.payload.role = UserRole.citizen)
    (hfind : get_user_by_id db tok.payload.sub = some u)
    (hrole : u.role = UserRole.admin) :
    decode_access_token s k now tok = some tok.payload ∧
    admin_guard s k now fb db tok =
      Except.ok (Claims.jwtPayload tok.payload) := by
  have hdec : decode_access_token s k now tok = some tok.payload := by
    simp [decode_access_token, hsig, hexp]
  refine ⟨hdec, ?_⟩
  simp [admin_guard, get_current_user_from_token, hdec, verify_admin,
    Claims.sub, hfind, User.is_admin, hrole]

/-- C2 witness: the amended statement at the concrete elevated user. -/
theorem admin_guard_decides_on_stored_role_witness :
    decode_access_token sampleSettings "dev" 0 staleCitizenToken =
      some staleCitizenToken.payload ∧
    admin_guard sampleSettings "dev" 0 (fun _ => none) [elevatedUser]
      staleCitizenToken =
      Except.ok (Claims.jwtPayload staleCitizenToken.payload) :=
  admin_guard_decides_on_stored_role sampleSettings "dev" 0 (fun _ => none)
    [elevatedUser] staleCitizenToken elevatedUser (by decide) (by decide)
    (by decide) (by decide) (by decide)

/-- C3: when local decoding fails (bad signature or expired), resolution
falls through to Firebase verification; when that succeeds the Firebase
claims are returned, and when it also fails the outcome is exactly the
401 error — never any other failure. -/
theorem resolve_falls_through_to_firebase (s : Settings) (k : String)
    (now : Nat) (fb : Token → Option FirebasePayload) (tok : Token)
    (hlocal : decode_access_token s k now tok = none) :
    (∀ f, fb tok = some f →
      get_current_user_from_token s k now fb tok =
        Except.ok (Claims.firebasePayload f)) ∧
    (fb tok = none →
      get_current_user_from_token s k now fb tok = Except.error 401) := by
  constructor
  · intro f hf
    simp [get_current_user_from_token, hlocal, verify_firebase_token, hf]
  · intro hf
    simp [get_current_user_from_token, hlocal, verify_firebase_token, hf]

/-- C3 witness: an expired token with no Firebase fallback yields 401. -/
theorem resolve_falls_through_to_firebase_witness :
    get_current_user_from_token sampleSettings "dev" 200 (fun _ => none)
      tokenForU1 = Except.error 401 :=
  (resolve_falls_through_to_firebase sampleSettings "dev" 200 (fun _ => none)
    tokenForU1 (by decide)).2 rfl

/-- C6: on the admin endpoint pipeline the 401 outcome occurs exactly when
no credential resolved, the 403 outcome occurs exactly when a credential
resolved but the role guard denied, and the two outcomes are distinct. -/
theorem unauthenticated_distinct_from_forbidden (s : Settings) (k : String)
    (now : Nat) (fb : Token → Option FirebasePayload) (db : List User)
    (tok : Token) :
    (admin_guard s k now fb db tok = Except.error 401 ↔
      get_current_user_from_token s k now fb tok = Except.error 401) ∧
    (admin_guard s k now fb db tok = Except.error 403 ↔
      ∃ cu, get_current_user_from_token s k now fb tok = Except.ok cu ∧
        verify_admin db cu = Except.error 403) ∧
    (Except.error 401 ≠ (Except.error 403 : Except Nat Claims)) := by
  refine ⟨?_, ?_, by decide⟩
  · cases hg : get_current_user_from_token s k now fb tok with
    | ok cu =>
      simp only [admin_guard, hg]
      constructor
      · intro h
        exact absurd h (verify_admin_never_401 db cu)
      · intro h
        cases h
    | error e =>
      have he : e = 401 := get_current_user_error_is_401 s k now fb tok e hg
      subst he
      simp [admin_guard, hg]
  · cases hg : get_current_user_from_token s k now fb tok with
    | ok cu =>
      simp only [admin_guard, hg]
      constructor
      · intro h
        exact ⟨cu, rfl, h⟩
      · rintro ⟨cu2, hcu2, hv⟩
        injection hcu2 with h2
        rw [h2]
        exact hv
    | error e =>
      have he : e = 401 := get_current_user_error_is_401 s k now fb tok e hg
      subst he
      simp only [admin_guard, hg]
      constructor
      · intro h
        exact absurd h (by decide)
      · rintro ⟨cu2, hcu2, hv⟩
        cases hcu2

/-- C8: create_access_token embeds exactly the sub, email and role it is
given, adds exp = issuance time + ACCESS_TOKEN_EXPIRE_MINUTES (the
configurable setting, 24 hours by default), and signs with the configured
shared secret. -/
theorem create_access_token_contract (s : Settings) (k : String) (now : Nat)
    (d : SessionData) (hkey : s.SECRET_KEY ≠ "") :
    create_access_token s k now d none =
      { payload := { sub := d.sub, email := d.email, role := d.role,
                     exp := now + s.ACCESS_TOKEN_EXPIRE_MINUTES * 60 },
        key := s.SECRET_KEY } ∧
    ({} : Settings).ACCESS_TOKEN_EXPIRE_MINUTES = 24 * 60 := by
  constructor
  · simp [create_access_token, get_secret_key, hkey]
  · rfl

/-- C8 witness: the contract at a concrete issuance. -/
theorem create_access_token_contract_witness :
    create_access_token sampleSettings "dev" 10
      { sub := "u9", email := "e@x.in", role := UserRole.citizen } none =
      { payload := { sub := "u9", email := "e@x.in", role := UserRole.citizen,
                     exp := 10 + sampleSettings.ACCESS_TOKEN_EXPIRE_MINUTES * 60 },
        key := sampleSettings.SECRET_KEY } ∧
    ({} : Settings).ACCESS_TOKEN_EXPIRE_MINUTES = 24 * 60 :=
  create_access_token_contract sampleSettings "dev" 10
    { sub := "u9", email := "e@x.in", role := UserRole.citizen } (by decide)

/-- C4 counterexample: on the query hello the retrieval stub returns only
the Article 21 excerpt — one source, not two. -/
theorem retrieve_documents_not_always_two :
    retrieve_documents "hello".toList = [article21Source] ∧
    (retrieve_documents "hello".toList).length ≠ 2 := by
  decide

/-- C4 amended: the stub returns both hard-coded excerpts exactly when the
lowercased query contains right or fundamental, and otherwise exactly the
Article 21 excerpt; nothing else is ever returned. -/
theorem retrieve_documents_sources (query : List Char) :
    (retrieve_documents query = [article21Source, article14Source] ∨
      retrieve_documents query = [article21Source]) ∧
    (retrieve_documents query = [article21Source, article14Source] ↔
      (containsSub (query.map Char.toLower) "right".toList ||
        containsSub (query.map Char.toLower) "fundamental".toList) = true) := by
  simp only [retrieve_documents]
  constructor
  · split
    · exact Or.inl rfl
    · exact Or.inr rfl
  · split
    · rename_i h
      constructor
      · intro _
        exact h
      · intro _
        rfl
    · rename_i h
      constructor
      · intro hcontra
        exact absurd hcontra (by simp)
      · intro hb
        exact absurd hb (by simpa using h)

/-- C5: every accepted registration creates a record with role citizen
(never admin or authority), issues a token carrying role citizen, and
appends exactly that record to the collection. -/
theorem register_user_creates_citizen (hash : String → String) (s : Settings)
    (k : String) (now : Nat) (fresh_id : String) (db : List User)
    (req : UserRegisterRequest) (db2 : List User) (u : User) (tok : Token)
    (hok : register_user hash s k now fresh_id db req =
      Except.ok (db2, u, tok)) :
    u.role = UserRole.citizen ∧ tok.payload.role = UserRole.citizen ∧
    db2 = db ++ [u] := by
  unfold register_user at hok
  split at hok
  · cases hok
  · split at hok
    · cases hok
    · simp only [Except.ok.injEq, Prod.mk.injEq] at hok
      obtain ⟨h1, h2, h3⟩ := hok
      subst h1
      subst h2
      subst h3
      exact ⟨rfl, rfl, rfl⟩

/-- C5 witness: registering on an empty collection yields a citizen. -/
theorem register_user_creates_citizen_witness :
    sampleRegisteredUser.role = UserRole.citizen :=
  (register_user_creates_citizen (fun p => p) sampleSettings "dev" 0 "id1" []
    sampleRegisterRequest [sampleRegisteredUser] sampleRegisteredUser
    (create_access_token sampleSettings "dev" 0
      { sub := "id1", email := "c@x.in", role := UserRole.citizen } none)
    (by decide)).1

/-- C9 counterexample: toggling u twice on a post whose likes are [u, v]
ends with likes [v, u], not the original list: like.remove drops u from
the front and the second call re-appends it at the end. -/
theorem like_post_double_toggle_moves_id :
    (like_post (like_post [samplePost] "p" "u").1 "p" "u").1 =
      [{ samplePost with likes := ["v", "u"] }] ∧
    (["v", "u"] : List String) ≠ samplePost.likes := by
  decide

/-- C9 amended: like_post returns True exactly when the post exists; when
user_id is absent from the likes it appends it exactly once and a second
call undoes the append exactly; when user_id occurs exactly once, a
double toggle leaves the likes a permutation of the original, with
user_id moved to the end. -/
theorem like_post_toggle_spec (db : List Post) (post_id user_id : String) :
    ((like_post db post_id user_id).2 = true ↔
      (db.find? (fun p => p.id == post_id)).isSome = true) ∧
    (∀ post, db.find? (fun p => p.id == post_id) = some post →
      (user_id ∉ post.likes →
        (like_post db post_id user_id).1.find? (fun p => p.id == post_id) =
          some { post with likes := post.likes ++ [user_id] } ∧
        like_post (like_post db post_id user_id).1 post_id user_id =
          (db, true)) ∧
      (post.likes.count user_id = 1 →
        (like_post (like_post db post_id user_id).1 post_id user_id).1.find?
            (fun p => p.id == post_id) =
          some { post with likes := post.likes.erase user_id ++ [user_id] } ∧
        (post.likes.erase user_id ++ [user_id]).Perm post.likes)) := by
  constructor
  · cases h : db.find? (fun p => p.id == post_id) with
    | none => simp [like_post, h]
    | some post => simp [like_post, h]
  · intro post hfind
    have hq : (post.id == post_id) = true := by
      simpa using List.find?_some hfind
    constructor
    · intro hnot
      have hfirst : like_post db post_id user_id =
          (updateFirst (fun p => p.id == post_id)
            (fun p => { p with likes := post.likes ++ [user_id] }) db, true) := by
        simp [like_post, hfind, hnot]
      have hfound := find?_updateFirst_found (fun p => p.id == post_id)
        (fun p => { p with likes := post.likes ++ [user_id] }) db post hfind hq
      refine ⟨by rw [hfirst]; exact hfound, ?_⟩
      rw [hfirst]
      have herase : (post.likes ++ [user_id]).erase user_id = post.likes := by
        rw [List.erase_append_right _ hnot]
        simp
      simp [like_post, hfound, herase]
      rw [updateFirst_cancel (fun p => p.id == post_id)
        (fun p => { p with likes := post.likes })
        (fun p => { p with likes := post.likes ++ [user_id] }) db post hfind
        (fun y => rfl) rfl]
    · intro hcount
      have hmem : user_id ∈ post.likes := by
        by_contra hno
        rw [List.count_eq_zero.mpr hno] at hcount
        omega
      have hfirst : like_post db post_id user_id =
          (updateFirst (fun p => p.id == post_id)
            (fun p => { p with likes := post.likes.erase user_id }) db, true) := by
        simp [like_post, hfind, hmem]
      have hfound := find?_updateFirst_found (fun p => p.id == post_id)
        (fun p => { p with likes := post.likes.erase user_id }) db post hfind hq
      have hnot2 : user_id ∉ post.likes.erase user_id := by
        rw [← List.count_eq_zero, List.count_erase_self, hcount]
      have hsecond : like_post (like_post db post_id user_id).1 post_id user_id =
          (updateFirst (fun p => p.id == post_id)
            (fun p => { p with likes := post.likes.erase user_id ++ [user_id] })
            (updateFirst (fun p => p.id == post_id)
              (fun p => { p with likes := post.likes.erase user_id }) db), true) := by
        rw [hfirst]
        simp only [like_post, hfound]
        rw [if_neg hnot2]
      constructor
      · rw [hsecond]
        exact find?_updateFirst_found (fun p => p.id == post_id)
          (fun p => { p with likes := post.likes.erase user_id ++ [user_id] })
          (updateFirst (fun p => p.id == post_id)
            (fun p => { p with likes := post.likes.erase user_id }) db)
          { post with likes := post.likes.erase user_id } hfound hq
      · exact (List.perm_append_singleton _ _).trans
          (List.perm_cons_erase hmem).symm

/-- C9 witness: the amended statement at a concrete post: liking with a
fresh id appends it, a second like removes it again exactly. -/
theorem like_post_toggle_spec_witness :
    like_post (like_post [samplePost] "p" "w").1 "p" "w" =
      ([samplePost], true) :=
  (((like_post_toggle_spec [samplePost] "p" "w").2 samplePost (by decide)).1
    (by decide)).2

/-- C10: follow_user refuses self-follows and absent users without
touching the store, and when both users exist and are distinct a second
identical call changes nothing — no duplicate following or follower
entries arise. -/
theorem follow_user_spec (db : List User) (a b : String) :
    (a = b → follow_user db a b = (db, false)) ∧
    ((db.find? (fun u => u.id == a) = none ∨
        db.find? (fun u => u.id == b) = none) →
      follow_user db a b = (db, false)) ∧
    (∀ user target, a ≠ b →
      db.find? (fun u => u.id == a) = some user →
      db.find? (fun u => u.id == b) = some target →
      follow_user (follow_user db a b).1 a b =
        ((follow_user db a b).1, true)) := by
  refine ⟨?_, ?_, ?_⟩
  · intro h
    simp [follow_user, h]
  · intro h
    rcases h with h | h
    · by_cases hab : a = b
      · simp [follow_user, hab]
      · simp [follow_user, hab, h]
    · by_cases hab : a = b
      · simp [follow_user, hab]
      · cases h2 : db.find? (fun u => u.id == a) with
        | none => simp [follow_user, hab, h2, h]
        | some u => simp [follow_user, hab, h2, h]
  · intro user target hab hfa hfb
    have hqa : (user.id == a) = true := by
      simpa using List.find?_some hfa
    have hqb : (target.id == b) = true := by
      simpa using List.find?_some hfb
    have hdisj_ab : ∀ y : User, (y.id == a) = true → (y.id == b) = false := by
      intro y hy
      have hya : y.id = a := by simpa using hy
      rw [hya]
      exact beq_eq_false_iff_ne.mpr hab
    have hdisj_ba : ∀ y : User, (y.id == b) = true → (y.id == a) = false := by
      intro y hy
      have hyb : y.id = b := by simpa using hy
      rw [hyb]
      exact beq_eq_false_iff_ne.mpr fun h => hab h.symm
    have key : ∃ u1 t1,
        (follow_user db a b).1.find? (fun u => u.id == a) = some u1 ∧
        b ∈ u1.following ∧
        (follow_user db a b).1.find? (fun u => u.id == b) = some t1 ∧
        a ∈ t1.followers := by
      by_cases c1 : b ∈ user.following <;> by_cases c2 : a ∈ target.followers
      · refine ⟨user, target, ?_, c1, ?_, c2⟩
        · simp [follow_user, hab, hfa, hfb, c1, c2]
        · simp [follow_user, hab, hfa, hfb, c1, c2]
      · refine ⟨user, { target with followers := target.followers ++ [a] },
          ?_, c1, ?_, by simp⟩
        · have hstate : (follow_user db a b).1 =
              updateFirst (fun u => u.id == b)
                (fun u => { u with followers := u.followers ++ [a] }) db := by
            simp [follow_user, hab, hfa, hfb, c1, c2]
          rw [hstate]
          rw [find?_updateFirst_disjoint (fun u => u.id == b) (fun u => u.id == a)
            (fun u => { u with followers := u.followers ++ [a] }) db hdisj_ba
            (fun y => rfl)]
          exact hfa
        · have hstate : (follow_user db a b).1 =
              updateFirst (fun u => u.id == b)
                (fun u => { u with followers := u.followers ++ [a] }) db := by
            simp [follow_user, hab, hfa, hfb, c1, c2]
          rw [hstate]
          exact find?_updateFirst_found _ _ db target hfb hqb
      · refine ⟨{ user with following := user.following ++ [b] }, target,
          ?_, by simp, ?_, c2⟩
        · have hstate : (follow_user db a b).1 =
              updateFirst (fun u => u.id == a)
                (fun u => { u with following := u.following ++ [b] }) db := by
            simp [follow_user, hab, hfa, hfb, c1, c2]
          rw [hstate]
          exact find?_updateFirst_found _ _ db user hfa hqa
        · have hstate : (follow_user db a b).1 =
              updateFirst (fun u => u.id == a)
                (fun u => { u with following := u.following ++ [b] }) db := by
            simp [follow_user, hab, hfa, hfb, c1, c2]
          rw [hstate]
          rw [find?_updateFirst_disjoint (fun u => u.id == a) (fun u => u.id == b)
            (fun u => { u with following := u.following ++ [b] }) db hdisj_ab
            (fun y => rfl)]
          exact hfb
      · refine ⟨{ user with following := user.following ++ [b] },
          { target with followers := target.followers ++ [a] },
          ?_, by simp, ?_, by simp⟩
        · have hstate : (follow_user db a b).1 =
              updateFirst (fun u => u.id == b)
                (fun u => { u with followers := u.followers ++ [a] })
                (updateFirst (fun u => u.id == a)
                  (fun u => { u with following := u.following ++ [b] }) db) := by
            simp [follow_user, hab, hfa, hfb, c1, c2]
          rw [hstate]
          rw [find?_updateFirst_disjoint (fun u => u.id == b) (fun u => u.id == a)
            (fun u => { u with followers := u.followers ++ [a] })
            (updateFirst (fun u => u.id == a)
              (fun u => { u with following := u.following ++ [b] }) db)
            hdisj_ba (fun y => rfl)]
          exact find?_updateFirst_found (fun u => u.id == a)
            (fun u => { u with following := u.following ++ [b] }) db user hfa hqa
        · have hstate : (follow_user db a b).1 =
              updateFirst (fun u => u.id == b)
                (fun u => { u with followers := u.followers ++ [a] })
                (updateFirst (fun u => u.id == a)
                  (fun u => { u with following := u.following ++ [b] }) db) := by
            simp [follow_user, hab, hfa, hfb, c1, c2]
          rw [hstate]
          have hmid : (updateFirst (fun u => u.id == a)
              (fun u => { u with following := u.following ++ [b] }) db).find?
                (fun u => u.id == b) = some target := by
            rw [find?_updateFirst_disjoint (fun u => u.id == a)
              (fun u => u.id == b)
              (fun u => { u with following := u.following ++ [b] }) db hdisj_ab
              (fun y => rfl)]
            exact hfb
          exact find?_updateFirst_found (fun u => u.id == b)
            (fun u => { u with followers := u.followers ++ [a] })
            (updateFirst (fun u => u.id == a)
              (fun u => { u with following := u.following ++ [b] }) db)
            target hmid hqb
    obtain ⟨u1, t1, h1, h1b, h2, h2a⟩ := key
    generalize hdb : (follow_user db a b).1 = db2 at h1 h2 ⊢
    simp [follow_user, hab, h1, h2, h1b, h2a]

/-- C10 witness: a self-follow is refused, and following the same user a
second time changes nothing. -/
theorem follow_user_spec_witness :
    follow_user [followerUser] "f1" "f1" = ([followerUser], false) ∧
    follow_user (follow_user [followerUser, followedUser] "f1" "f2").1
        "f1" "f2" =
      ((follow_user [followerUser, followedUser] "f1" "f2").1, true) :=
  ⟨(follow_user_spec [followerUser] "f1" "f1").1 rfl,
   (follow_user_spec [followerUser, followedUser] "f1" "f2").2.2 followerUser
     followedUser (by decide) (by decide) (by decide)⟩

/-- C7: when Firebase claims match an existing user by email and no record
is linked to the provider uid, firebase_auth links the uid to that
record: the collection size is unchanged, a lookup by provider uid now
finds the linked record, and repeating the same login finds it directly
by uid and creates no second record. -/
theorem firebase_auth_links_provider_id (db : List User)
    (fd : FirebasePayload) (fid1 fid2 : String) (ru rn : Option String)
    (u0 : User)
    (hnouid : db.find? (fun u => u.firebase_uid == some fd.uid) = none)
    (hemail : db.find? (fun u => u.email == fd.email) = some u0)
    (_hu0 : u0.firebase_uid = none) :
    ∃ db1, firebase_auth db fid1 ru rn (some fd) =
        Except.ok (db1, { u0 with firebase_uid := some fd.uid }) ∧
      db1.length = db.length ∧
      db1.find? (fun u => u.firebase_uid == some fd.uid) =
        some { u0 with firebase_uid := some fd.uid } ∧
      firebase_auth db1 fid2 ru rn (some fd) =
        Except.ok (db1, { u0 with firebase_uid := some fd.uid }) := by
  have hfound := find?_updateFirst_fresh (fun u => u.email == fd.email)
    (fun u => u.firebase_uid == some fd.uid)
    (fun u => { u with firebase_uid := some fd.uid }) db u0 hemail hnouid
    (by simp)
  refine ⟨updateFirst (fun u => u.email == fd.email)
    (fun u => { u with firebase_uid := some fd.uid }) db, ?_, ?_, hfound, ?_⟩
  · simp [firebase_auth, hnouid, hemail]
  · exact updateFirst_length _ _ db
  · simp [firebase_auth, hfound]

/-- C7 witness: linking at a concrete one-user collection. -/
theorem firebase_auth_links_provider_id_witness :
    ∃ db1, firebase_auth [unlinkedUser] "n1" none none
        (some sampleFirebasePayload) =
        Except.ok (db1,
          { unlinkedUser with firebase_uid := some sampleFirebasePayload.uid }) ∧
      db1.length = ([unlinkedUser] : List User).length ∧
      db1.find? (fun u => u.firebase_uid == some sampleFirebasePayload.uid) =
        some { unlinkedUser with
          firebase_uid := some sampleFirebasePayload.uid } ∧
      firebase_auth db1 "n2" none none (some sampleFirebasePayload) =
        Except.ok (db1,
          { unlinkedUser with
            firebase_uid := some sampleFirebasePayload.uid }) :=
  firebase_auth_links_provider_id [unlinkedUser] sampleFirebasePayload "n1" "n2"
    none none unlinkedUser (by decide) (by decide) (by decide)
